import Mathlib

/-!
# Verification of the hh_auto_apply application-submission workflow

Shallow embedding of the repository's core logic:

* `src/hh_auto_apply/utils.py` — `extract_vacancy_id` (regex search for
  `/vacancy/(\d+)` over the whole URL string, with a split-based fallback);
* `src/hh_auto_apply/client.py` — `HHClient`: `already_applied`,
  `get_apply_button`, `fill_cover_letter_with_verification`,
  `select_specific_resume`, `find_enabled_submit`, `add_cover_letter_and_submit`,
  `apply_to_vacancy`;
* `src/hh_auto_apply_refactored.py` — the variant `add_cover_letter_and_submit`
  (identical except that it returns `False` when the required resume is missing);
* `src/hh_auto_apply/app.py` — the per-link body of `App.run`.

Python strings are modelled as `List Char`; the Playwright page is modelled as
an environment of probe records giving, for each locator the code consults, the
observable answers (visibility, attribute values, read-back text, whether the
interaction raised).  Every UI side effect the claims talk about (screenshots,
clicks on submit controls, invoking a phase) is recorded in an `Act` trace.
`\d` of the Python regex is modelled as an ASCII digit and `str.strip` /
`str.lower` as their ASCII restrictions; all inputs considered here are within
that fragment.
-/

/-! ## utils.py: extract_vacancy_id -/

/-- Match a literal character list at the head of the input; on success return
the rest of the input.  `stripLit lit s = some r` iff `s = lit ++ r`. -/
def stripLit : List Char → List Char → Option (List Char)
  | [], s => some s
  | _ :: _, [] => none
  | p :: ps, c :: cs => if c = p then stripLit ps cs else none

/-- The literal part of the pattern `VAC_ID_RE = re.compile(r"/vacancy/(\d+)")`. -/
def vacLit : List Char := ['/', 'v', 'a', 'c', 'a', 'n', 'c', 'y', '/']

/-- One anchored attempt of `VAC_ID_RE` at the current position: the literal
`/vacancy/` followed by at least one digit; the greedy capture group is the
maximal digit run. -/
def vacStep (s : List Char) : Option (List Char) :=
  match stripLit vacLit s with
  | some (d :: rest) =>
      if d.isDigit then some (List.takeWhile Char.isDigit (d :: rest)) else none
  | some [] => none
  | none => none

/-- Model of `re.search`: leftmost position at which the pattern matches, scanning left
to right over the whole string (Python searches the full URL, not its path). -/
def vacSearch : List Char → Option (List Char)
  | [] => none
  | c :: cs =>
    match vacStep (c :: cs) with
    | some r => some r
    | none => vacSearch cs

/-- Model of `url.split("?")[0]` / `val.split(sep)[0]`: the part before the first
occurrence of `sep` (the whole string if `sep` does not occur). -/
def beforeFirst (sep : Char) : List Char → List Char
  | [] => []
  | c :: cs => if c = sep then [] else c :: beforeFirst sep cs

/-- The remainder of the string from the first occurrence of `sep` on
(including `sep`); `[]` if `sep` does not occur.  Used only to decompose a URL
into its pre-query part and its query tail. -/
def fromFirst (sep : Char) : List Char → List Char
  | [] => []
  | c :: cs => if c = sep then c :: cs else fromFirst sep cs

/-- Model of `url.split(sep)[-1]`: the part after the last occurrence of `sep` (the
whole string if `sep` does not occur). -/
def afterLast (sep : Char) : List Char → List Char
  | [] => []
  | c :: cs =>
    if sep ∈ cs then afterLast sep cs
    else if c = sep then cs
    else c :: cs

/-- The function `extract_vacancy_id` (src/hh_auto_apply/utils.py lines 16-18):
`m = VAC_ID_RE.search(url); return m.group(1) if m else
url.split("/")[-1].split("?")[0]`. -/
def extract_vacancy_id (url : List Char) : List Char :=
  match vacSearch url with
  | some d => d
  | none => beforeFirst '?' (afterLast '/' url)

/-- Drop trailing occurrences of `sep`. -/
def dropTrail (sep : Char) (s : List Char) : List Char :=
  (s.reverse.dropWhile (fun c => c = sep)).reverse

/-- Modelled from the spec: "the last non-empty path segment stripped of its
query string" — strip the query at the first `?`, drop trailing slashes, and
take what follows the last remaining slash.  This is the value the spec's
fallback clause promises, used to compare against `extract_vacancy_id`. -/
def specLastSeg (url : List Char) : List Char :=
  afterLast '/' (dropTrail '/' (beforeFirst '?' url))

/-! ## client.py: the page model

Every claim about `HHClient` is settled against an explicit environment that
records, for each locator probe the code performs, what the page answered.
Side effects relevant to the claims are collected in an `Act` trace. -/

/-- Observable side effects of the workflow, in execution order.
`shot tag` is `make_shot(page, tag)`; `submitClick k` is an invocation of
`btn.click(force=True)` in cycle `k` of the submission loop. -/
inductive Act where
  | navGoto
  | shot (tag : String)
  | fillTry (attempt : Nat)
  | resumeSpecific
  | resumeAny
  | consentCheck
  | submitProbe (cycle : Nat)
  | submitClick (cycle : Nat)
  | pageClose
  deriving DecidableEq

/-- The enum `ApplyResult` (src/hh_auto_apply/domain.py). -/
inductive ApplyResult where
  | success
  | skippedAlreadyApplied
  | error
  deriving DecidableEq

/-- Configuration fields consulted by `add_cover_letter_and_submit`
(src/hh_auto_apply/config.py).  `Config` defines no `use_ai_cover_letter`
field: see `apply_to_vacancy` below. -/
structure Cfg where
  require_cover_letter : Bool
  fail_if_resume_not_found : Bool
  resume_match : List Char

/-- Page answers for `already_applied` / `get_apply_button`:
visibility of each of the four `Selectors.ALREADY_APPLIED_TEXT` phrases and of
each of the six apply-button candidate locators, in source order. -/
structure ApplyPageProbe where
  textVisible : List Bool
  applyBtnVisible : List Bool

/-- The method `get_apply_button` (client.py lines 178-190): the first of the candidate
locators that is visible, `None` otherwise.  We return the candidate index. -/
def get_apply_button (cands : List Bool) : Option Nat :=
  List.findIdx? (fun b => b) cands

/-- The method `already_applied` (client.py lines 192-196): some confirmation phrase is
visible, or `get_apply_button` found nothing. -/
def already_applied (p : ApplyPageProbe) : Bool :=
  p.textVisible.any (fun b => b) || (get_apply_button p.applyBtnVisible).isNone

/-! ### Cover letter filler (client.py lines 288-326) -/

/-- One probe of a textarea strategy inside the fill loop: whether
`is_visible` succeeded, whether any of click/press/fill/read raised (all are
swallowed by the per-strategy `except`), and the value `input_value()` read
back. -/
structure FillProbe where
  visible : Bool
  raises : Bool
  readback : List Char

/-- Python `str.strip()` restricted to ASCII whitespace (the full method also
strips `\x0b`, `\x0c` and Unicode spaces; no property proved here depends on
those). -/
def stripWs (s : List Char) : List Char :=
  ((s.dropWhile Char.isWhitespace).reverse.dropWhile Char.isWhitespace).reverse

/-- The inner `for sel in textarea_selectors` loop of one fill attempt:
skip invisible strategies, swallow raising ones, and succeed exactly when
`len(val) >= min(20, len(cover_text) // 2)` for the stripped read-back. -/
def fillStratLoop (cover : List Char) (probe : Nat → FillProbe) : List Nat → Bool
  | [] => false
  | s :: rest =>
    let p := probe s
    if p.visible then
      if p.raises then fillStratLoop cover probe rest
      else if min 20 (cover.length / 2) ≤ (stripWs p.readback).length then true
      else fillStratLoop cover probe rest
    else fillStratLoop cover probe rest

/-- The outer `for attempt in range(3)` loop; one `Act.fillTry` per attempt
cycle started.  (The toggler block preceding the loop only reveals the field
and is swallow-all; it contributes nothing observable to the claims.) -/
def fillAttemptLoop (cover : List Char) (env : Nat → Nat → FillProbe) :
    List Nat → Bool × List Act
  | [] => (false, [])
  | a :: rest =>
    if fillStratLoop cover (env a) [0, 1, 2] then (true, [Act.fillTry a])
    else
      let r := fillAttemptLoop cover env rest
      (r.1, Act.fillTry a :: r.2)

/-- The method `fill_cover_letter_with_verification` (client.py lines 288-326): three
attempts over the three textarea strategies. -/
def fill_cover_letter_with_verification (cover : List Char)
    (env : Nat → Nat → FillProbe) : Bool × List Act :=
  fillAttemptLoop cover env [0, 1, 2]

/-! ### Resume selector (client.py lines 198-243) -/

/-- One textual-phase probe of `select_specific_resume`: whether the XPath
text-matching locator found a visible element (the text matching itself is
evaluated by the browser), and whether activating it raised. -/
structure ResumeTextualHit where
  found : Bool
  actRaises : Bool

/-- One container item of the generic phase: visibility, its `inner_text`,
and whether reading the text or activating the item raised. -/
structure ResumeItem where
  visible : Bool
  text : List Char
  raises : Bool

/-- Page answers for `select_specific_resume`: the three textual XPath
strategies, then the container lists of the four generic selectors. -/
structure ResumeEnv where
  textual : List ResumeTextualHit
  containers : List (List ResumeItem)

/-- Python substring containment, `mask in text`. -/
def containsSub (n : List Char) : List Char → Bool
  | [] => n.isEmpty
  | c :: cs => (stripLit n (c :: cs)).isSome || containsSub n cs

/-- Python `str.lower()` restricted to ASCII (the source also lowercases
Cyrillic; the concrete inputs used here are ASCII). -/
def lowerAscii (s : List Char) : List Char := s.map Char.toLower

/-- The textual phase: first found-and-visible XPath hit that activates
without raising wins; raising hits are skipped. -/
def selectTextual : List ResumeTextualHit → Bool
  | [] => false
  | h :: rest =>
    if h.found then (if h.actRaises then selectTextual rest else true)
    else selectTextual rest

/-- The per-container item loop (`for i in range(min(count, 10))`): skip
invisible items, swallow raising ones, activate the first visible item whose
stripped lowercased text contains the mask. -/
def selectFromItems (mask : List Char) : List ResumeItem → Bool
  | [] => false
  | it :: rest =>
    if it.visible then
      if it.raises then selectFromItems mask rest
      else if containsSub mask (lowerAscii (stripWs it.text)) then true
      else selectFromItems mask rest
    else selectFromItems mask rest

/-- The generic-container phase over the four container selectors. -/
def selectContainers (mask : List Char) : List (List ResumeItem) → Bool
  | [] => false
  | items :: rest =>
    if selectFromItems mask (items.take 10) then true
    else selectContainers mask rest

/-- The method `select_specific_resume` (client.py lines 198-243): textual phase, then
generic-container phase. -/
def select_specific_resume (mask : List Char) (env : ResumeEnv) : Bool :=
  if selectTextual env.textual then true
  else selectContainers mask env.containers

/-! ### Submission driver (client.py lines 328-405) -/

/-- One probe of a submit-button strategy inside `find_enabled_submit`:
visibility, whether `get_attribute` raised, and the values of the `disabled`
and `aria-disabled` attributes (`none` = attribute absent). -/
structure BtnProbe where
  visible : Bool
  raises : Bool
  disabledAttr : Option (List Char)
  ariaDisabled : Option (List Char)
  deriving DecidableEq

/-- Python truthiness of `get_attribute`'s result in `if not disabled`:
falsy exactly when the attribute is absent (`None`) or present with the empty
string as value. -/
def pyAttrFalsy : Option (List Char) → Bool
  | none => true
  | some s => s.isEmpty

/-- The test `aria is None or aria == "false"`. -/
def ariaOk : Option (List Char) → Bool
  | none => true
  | some s => s = ['f', 'a', 'l', 's', 'e']

/-- The qualification test of `find_enabled_submit` (client.py lines 353-364):
visible, attribute reads did not raise, `not disabled`, and
`aria is None or aria == "false"`. -/
def btnQualifies (p : BtnProbe) : Bool :=
  p.visible && !p.raises && pyAttrFalsy p.disabledAttr && ariaOk p.ariaDisabled

/-- The `for sel in submit_candidates` loop of `find_enabled_submit`, carrying
the index of the current strategy: skip invisible buttons, swallow raising
attribute reads, return the current strategy on the first enabled candidate. -/
def findEnabledSubmitAux : Nat → List BtnProbe → Option Nat
  | _, [] => none
  | i, p :: rest =>
    if p.visible then
      if p.raises then findEnabledSubmitAux (i + 1) rest
      else if pyAttrFalsy p.disabledAttr && ariaOk p.ariaDisabled then some i
      else findEnabledSubmitAux (i + 1) rest
    else findEnabledSubmitAux (i + 1) rest

/-- The helper `find_enabled_submit` (client.py lines 353-364): first strategy whose
button qualifies (index into the candidate list), else `None`. -/
def find_enabled_submit (ps : List BtnProbe) : Option Nat :=
  findEnabledSubmitAux 0 ps

/-- Modelled from the spec: "a candidate qualifies only if visible AND not
disabled (no `disabled` attribute is present and any `aria-disabled`
attribute, if present, equals the literal string `false`)" — the claim's
reading, in which a present-but-empty `disabled` attribute disqualifies. -/
def specQualifies (p : BtnProbe) : Bool :=
  p.visible && p.disabledAttr.isNone && ariaOk p.ariaDisabled

/-- Environment of one cycle of the submission loop: the four strategy probes
for `find_enabled_submit`, whether each `btn.click(force=True)` raised, and
the page state at each of the up-to-four `already_applied` verification
checks. -/
structure SubmitCycle where
  probes : List BtnProbe
  click1Raises : Bool
  applied1 : ApplyPageProbe
  applied2 : ApplyPageProbe
  click2Raises : Bool
  applied3 : ApplyPageProbe
  applied4 : ApplyPageProbe

/-- One iteration of `for _ in range(3)` (client.py lines 366-402):
probe for an enabled submit button; if found, click (with one forced retry
after a recovery pause if the first click raised) and verify success by
re-checking `already_applied` twice; if not found, re-run the consent handler
and pause.  `some b` = `return b` from the loop, `none` = fall through to the
next cycle.  Scrolling and pauses have no observable effect on the claims. -/
def runSubmitCycle (k : Nat) (c : SubmitCycle) : Option Bool × List Act :=
  match find_enabled_submit c.probes with
  | some _ =>
    let res : Option Bool :=
      if c.click1Raises then
        if c.click2Raises then none
        else if already_applied c.applied3 then some true
        else if already_applied c.applied4 then some true
        else none
      else if already_applied c.applied1 then some true
      else if already_applied c.applied2 then some true
      else none
    let acts :=
      if c.click1Raises then [Act.submitProbe k, Act.submitClick k, Act.submitClick k]
      else [Act.submitProbe k, Act.submitClick k]
    (res, acts)
  | none => (none, [Act.submitProbe k, Act.consentCheck])

/-- The whole submission loop; after three fruitless cycles the code logs,
takes the `submit_fail` screenshot and returns `False`. -/
def submitLoop (cycles : Nat → SubmitCycle) : List Nat → Bool × List Act
  | [] => (false, [Act.shot "submit_fail"])
  | k :: rest =>
    let r := runSubmitCycle k (cycles k)
    match r.1 with
    | some b => (b, r.2)
    | none =>
      let r2 := submitLoop cycles rest
      (r2.1, r.2 ++ r2.2)

/-- Environment of `add_cover_letter_and_submit`: the fill probes, the resume
page, and the per-cycle submission answers. -/
structure SubmitEnv where
  fill : Nat → Nat → FillProbe
  resume : ResumeEnv
  cycles : Nat → SubmitCycle

/-- The resume-selection stretch of `add_cover_letter_and_submit` (client.py
lines 335-343).  When the required resume is not found and
`fail_if_resume_not_found` is set, the code takes the `resume_not_found`
screenshot but — per its own comment "Do not return here, just log and
continue to the next vacancy" — does NOT return: execution falls through to
the consent pass and the submission loop.  In the non-strict branch,
`select_any_resume_if_needed`'s return value is discarded by the source; only
its invocation is recorded. -/
def resumePhaseActs (cfg : Cfg) (env : ResumeEnv) : List Act :=
  if select_specific_resume cfg.resume_match env then [Act.resumeSpecific]
  else if cfg.fail_if_resume_not_found then
    [Act.resumeSpecific, Act.shot "resume_not_found"]
  else [Act.resumeSpecific, Act.resumeAny]

/-- The method `add_cover_letter_and_submit` (src/hh_auto_apply/client.py lines
328-405): fill the cover letter (fatal when required and unverified), run the
resume-selection stretch (`resumePhaseActs`), re-check consents, then drive
the three-cycle submission loop. -/
def add_cover_letter_and_submit (cfg : Cfg) (cover : List Char)
    (env : SubmitEnv) : Bool × List Act :=
  if cfg.require_cover_letter &&
      !(fill_cover_letter_with_verification cover env.fill).1 then
    (false,
     (fill_cover_letter_with_verification cover env.fill).2 ++
       [Act.shot "no_cover_letter"])
  else
    ((submitLoop env.cycles [0, 1, 2]).1,
     (fill_cover_letter_with_verification cover env.fill).2 ++
       resumePhaseActs cfg env.resume ++ [Act.consentCheck] ++
       (submitLoop env.cycles [0, 1, 2]).2)

/-- The method `add_cover_letter_and_submit` of src/hh_auto_apply_refactored.py
(lines 426-441 and following): textually identical to the client.py version
except that the missing-resume strict branch ends in `return False`. -/
def add_cover_letter_and_submit_refactored (cfg : Cfg) (cover : List Char)
    (env : SubmitEnv) : Bool × List Act :=
  if cfg.require_cover_letter &&
      !(fill_cover_letter_with_verification cover env.fill).1 then
    (false,
     (fill_cover_letter_with_verification cover env.fill).2 ++
       [Act.shot "no_cover_letter"])
  else if !select_specific_resume cfg.resume_match env.resume &&
      cfg.fail_if_resume_not_found then
    (false,
     (fill_cover_letter_with_verification cover env.fill).2 ++
       [Act.resumeSpecific, Act.shot "resume_not_found"])
  else
    ((submitLoop env.cycles [0, 1, 2]).1,
     (fill_cover_letter_with_verification cover env.fill).2 ++
       (if select_specific_resume cfg.resume_match env.resume then [Act.resumeSpecific]
        else [Act.resumeSpecific, Act.resumeAny]) ++
       [Act.consentCheck] ++ (submitLoop env.cycles [0, 1, 2]).2)

/-! ### Listing workflow (client.py lines 407-527) -/

/-- The class of an exception raised by `page.goto` in the body of
`apply_to_vacancy`: a Playwright navigation timeout, or anything else
(DNS failure, connection reset, ...). -/
inductive ExcKind where
  | pwTimeout
  | otherExc
  deriving DecidableEq

/-- The observable result of calling `apply_to_vacancy`: a normal return, or
an exception of the given name propagating out of the call. -/
inductive ExecResult where
  | ok (r : ApplyResult) (title : List Char)
  | uncaught (excName : String)
  deriving DecidableEq

/-- Environment of `apply_to_vacancy`: what `page.goto` did, the title the
fallback chain extracted (its probes are all individually try/except-guarded),
and the page state at the `already_applied` check. -/
structure VacEnv where
  navRaise : Option ExcKind
  title : List Char
  page0 : ApplyPageProbe

/-- The method `apply_to_vacancy` (src/hh_auto_apply/client.py lines 407-527).

The except ladder is, in source order: `except PWTimeoutError` (screenshot
`vacancy_timeout`, return `ERROR`), then two copies of
`except TargetClosedError` — a name that is never imported or defined in
client.py, so for any body exception that is not a `PWTimeoutError`, Python
raises `NameError` while evaluating that clause and the `except Exception`
handler below it is never reached; the `finally` still closes the page.

After the `already_applied` short-circuit the body reads
`self.cfg.use_ai_cover_letter` (line 447); `Config`
(src/hh_auto_apply/config.py) defines no such field, so that access raises
`AttributeError`, which the broken ladder turns into an uncaught `NameError`.
Hence in this file no path of `apply_to_vacancy` ever reaches
`add_cover_letter_and_submit`, which is therefore verified directly above. -/
def apply_to_vacancy (env : VacEnv) : ExecResult × List Act :=
  match env.navRaise with
  | some ExcKind.pwTimeout =>
    (ExecResult.ok ApplyResult.error [],
     [Act.navGoto, Act.shot "vacancy_timeout", Act.pageClose])
  | some ExcKind.otherExc =>
    (ExecResult.uncaught "NameError", [Act.navGoto, Act.pageClose])
  | none =>
    if already_applied env.page0 then
      (ExecResult.ok ApplyResult.skippedAlreadyApplied env.title,
       [Act.navGoto, Act.pageClose])
    else
      (ExecResult.uncaught "NameError", [Act.navGoto, Act.pageClose])

/-! ### app.py: the per-link body of the main loop (lines 107-142) -/

/-- Observable actions of one iteration of `for vurl in links`. -/
inductive AppAct where
  | openListing (url : List Char)
  | applyCall (url : List Char)
  | markSeen (id : List Char)
  | csvRow (url : List Char)
  deriving DecidableEq

/-- One iteration of the per-link loop in `App.run` (src/hh_auto_apply/app.py
lines 107-142), for a listing whose processing returns `outcome`:
extract the id, skip if seen, otherwise process and then `mark_seen`
unconditionally; on `SUCCESS` also append the CSV row.  The seen-store is
modelled by its ids (insert-if-absent, `INSERT OR IGNORE`). -/
def processLink (dryRun : Bool) (store : List (List Char)) (vurl : List Char)
    (outcome : ApplyResult) : List AppAct × List (List Char) :=
  let vacId := extract_vacancy_id vurl
  if vacId ∈ store then ([], store)
  else
    let result := if dryRun then ApplyResult.success else outcome
    let applyActs :=
      if dryRun then [AppAct.openListing vurl]
      else [AppAct.openListing vurl, AppAct.applyCall vurl]
    let tailActs :=
      if result = ApplyResult.success then [AppAct.csvRow vurl] else []
    (applyActs ++ [AppAct.markSeen vacId] ++ tailActs, store ++ [vacId])

/-! ### Act classifiers and concrete environments used by the theorems -/

/-- The acceptance test of one fill probe, exactly as the code evaluates it:
the strategy's textarea is visible, the interaction did not raise, and
`len(val) >= min(20, len(cover_text) // 2)` for the stripped read-back. -/
def goodProbe (cover : List Char) (p : FillProbe) : Bool :=
  p.visible && !p.raises &&
    decide (min 20 (cover.length / 2) ≤ (stripWs p.readback).length)

/-- Acts of the cover-letter, resume, consent or submission phases — the
things the already-applied short-circuit must never perform. -/
def isWorkAct : Act → Bool
  | Act.fillTry _ => true
  | Act.resumeSpecific => true
  | Act.resumeAny => true
  | Act.consentCheck => true
  | Act.submitProbe _ => true
  | Act.submitClick _ => true
  | _ => false

/-- Acts of resume selection or of the submission loop. -/
def isResumeOrSubmitAct : Act → Bool
  | Act.resumeSpecific => true
  | Act.resumeAny => true
  | Act.submitProbe _ => true
  | Act.submitClick _ => true
  | _ => false

def isSubmitProbe : Act → Bool
  | Act.submitProbe _ => true
  | _ => false

def isFillTry : Act → Bool
  | Act.fillTry _ => true
  | _ => false

/-- A page state on which a confirmation phrase is visible
(`already_applied` answers true). -/
def appliedPage : ApplyPageProbe := ⟨[true], []⟩

/-- A visible, enabled submit button: no `disabled` attribute, no
`aria-disabled` attribute. -/
def enabledBtn : BtnProbe := ⟨true, false, none, none⟩

/-- A submission cycle that finds `enabledBtn`, clicks without raising, and
then sees the confirmation phrase. -/
def okCycle : SubmitCycle := ⟨[enabledBtn], false, appliedPage, appliedPage, false, appliedPage, appliedPage⟩

/-- Configuration for the strict-resume scenario of C1:
`REQUIRE_COVER_LETTER=true`, `FAIL_IF_RESUME_NOT_FOUND=true`. -/
def c1Cfg : Cfg := ⟨true, true, ['p', 'y', 't', 'h', 'o', 'n']⟩

/-- A 40-character cover letter (threshold `min(20, 40 // 2) = 20`). -/
def c1Cover : List Char := "Hello, I am interested in this position.".toList

/-- Environment for C1: the cover letter fill succeeds on the first probe
(read-back identical to the text), the resume page has NO entries at all —
so no resume entry's text contains the criterion — and the first submission
cycle succeeds. -/
def c1Env : SubmitEnv :=
  ⟨fun _ _ => ⟨true, false, c1Cover⟩, ⟨[], []⟩, fun _ => okCycle⟩

/-- Environment for C7: the cover-letter textarea is never visible on any
strategy of any attempt. -/
def c7Env : SubmitEnv :=
  ⟨fun _ _ => ⟨false, false, []⟩, ⟨[], []⟩, fun _ => okCycle⟩

/-! ## Theorems -/

/-! ### Helper lemmas about the extraction functions -/

theorem stripLit_append_some {lit s r : List Char} (h : stripLit lit s = some r)
    (t : List Char) : stripLit lit (s ++ t) = some (r ++ t) := by
  induction lit generalizing s with
  | nil =>
    simp only [stripLit, Option.some.injEq] at h
    subst h
    simp [stripLit]
  | cons p ps ih =>
    cases s with
    | nil => simp [stripLit] at h
    | cons c cs =>
      by_cases hc : c = p
      · simp only [stripLit, if_pos hc] at h
        simpa only [List.cons_append, stripLit, if_pos hc] using ih h
      · simp [stripLit, hc] at h

theorem stripLit_append_cons_none {lit s : List Char} {x : Char}
    (hx : x ∉ lit) (h : stripLit lit s = none) (t : List Char) :
    stripLit lit (s ++ x :: t) = none := by
  induction lit generalizing s with
  | nil => simp [stripLit] at h
  | cons p ps ih =>
    cases s with
    | nil =>
      have hpx : x ≠ p := fun e => hx (e ▸ List.mem_cons_self p ps)
      simp [stripLit, hpx]
    | cons c cs =>
      by_cases hc : c = p
      · simp only [stripLit, if_pos hc] at h
        simpa only [List.cons_append, stripLit, if_pos hc] using
          ih (fun hm => hx (List.mem_cons_of_mem _ hm)) h
      · simp [stripLit, hc]

theorem takeWhile_append_cons_neg {α : Type} {p : α → Bool} {y : α}
    (hy : p y = false) (xs ys : List α) :
    List.takeWhile p (xs ++ y :: ys) = List.takeWhile p xs := by
  induction xs with
  | nil => simp [List.takeWhile_cons, hy]
  | cons x xs ih =>
    by_cases hx : p x
    · simp [List.takeWhile_cons, hx, ih]
    · simp [List.takeWhile_cons, hx]

theorem vacStep_append_query (s q : List Char) :
    vacStep (s ++ '?' :: q) = vacStep s := by
  unfold vacStep
  cases h : stripLit vacLit s with
  | none => rw [stripLit_append_cons_none (by decide) h q]
  | some r =>
    rw [stripLit_append_some h ('?' :: q)]
    cases r with
    | nil => simp
    | cons d rest =>
      by_cases hd : d.isDigit
      · simp only [List.cons_append, hd, if_pos]
        rw [show (d :: (rest ++ '?' :: q)) = (d :: rest) ++ '?' :: q from rfl,
          takeWhile_append_cons_neg (by decide)]
      · simp [hd]

theorem vacSearch_eq_none_of_no_slash {s : List Char} (h : '/' ∉ s) :
    vacSearch s = none := by
  induction s with
  | nil => rfl
  | cons c cs ih =>
    have hc : c ≠ '/' := fun e => h (e ▸ List.mem_cons_self c cs)
    have hcs : '/' ∉ cs := fun m => h (List.mem_cons_of_mem _ m)
    have hstep : vacStep (c :: cs) = none := by
      unfold vacStep
      have hnl : stripLit vacLit (c :: cs) = none := by
        simp [vacLit, stripLit, hc]
      rw [hnl]
    simp [vacSearch, hstep, ih hcs]

theorem vacSearch_append_query (q : List Char) (hq : '/' ∉ q) :
    ∀ s, vacSearch (s ++ '?' :: q) = vacSearch s := by
  intro s
  induction s with
  | nil =>
    show vacSearch ('?' :: q) = none
    have hstep : vacStep ('?' :: q) = none := by
      unfold vacStep
      have hnl : stripLit vacLit ('?' :: q) = none := by
        simp [vacLit, stripLit]
      rw [hnl]
    simp [vacSearch, hstep, vacSearch_eq_none_of_no_slash hq]
  | cons c cs ih =>
    show vacSearch (c :: (cs ++ '?' :: q)) = vacSearch (c :: cs)
    have hv : vacStep (c :: (cs ++ '?' :: q)) = vacStep (c :: cs) :=
      vacStep_append_query (c :: cs) q
    simp only [vacSearch, hv]
    cases h : vacStep (c :: cs) with
    | some r => rfl
    | none => exact ih

theorem mem_afterLast {sep a : Char} :
    ∀ {s : List Char}, a ∈ afterLast sep s → a ∈ s := by
  intro s
  induction s with
  | nil => simp [afterLast]
  | cons c cs ih =>
    intro h
    unfold afterLast at h
    by_cases h1 : sep ∈ cs
    · rw [if_pos h1] at h
      exact List.mem_cons_of_mem _ (ih h)
    · rw [if_neg h1] at h
      by_cases h2 : c = sep
      · rw [if_pos h2] at h
        exact List.mem_cons_of_mem _ h
      · rwa [if_neg h2] at h

theorem beforeFirst_eq_self {c : Char} :
    ∀ {s : List Char}, c ∉ s → beforeFirst c s = s := by
  intro s
  induction s with
  | nil => intro _; rfl
  | cons x xs ih =>
    intro h
    have hx : x ≠ c := fun e => h (e ▸ List.mem_cons_self x xs)
    have hxs : c ∉ xs := fun m => h (List.mem_cons_of_mem _ m)
    simp [beforeFirst, hx, ih hxs]

theorem beforeFirst_append_cons {c : Char} {s : List Char} (h : c ∉ s)
    (t : List Char) : beforeFirst c (s ++ c :: t) = s := by
  induction s with
  | nil => simp [beforeFirst]
  | cons x xs ih =>
    have hx : x ≠ c := fun e => h (e ▸ List.mem_cons_self x xs)
    have hxs : c ∉ xs := fun m => h (List.mem_cons_of_mem _ m)
    simp [beforeFirst, hx, ih hxs]

theorem not_mem_beforeFirst (c : Char) :
    ∀ s : List Char, c ∉ beforeFirst c s := by
  intro s
  induction s with
  | nil => simp [beforeFirst]
  | cons x xs ih =>
    by_cases hx : x = c
    · simp [beforeFirst, hx]
    · simp only [beforeFirst, if_neg hx]
      intro hmem
      rcases List.mem_cons.mp hmem with h1 | h2
      · exact hx h1.symm
      · exact ih h2

theorem afterLast_eq_self {sep : Char} :
    ∀ {s : List Char}, sep ∉ s → afterLast sep s = s := by
  intro s
  induction s with
  | nil => intro _; rfl
  | cons c cs _ =>
    intro h
    have hc : c ≠ sep := fun e => h (e ▸ List.mem_cons_self c cs)
    have hcs : sep ∉ cs := fun m => h (List.mem_cons_of_mem _ m)
    simp [afterLast, hc, hcs]

theorem afterLast_append {sep : Char} {t : List Char} (ht : sep ∉ t) :
    ∀ s, afterLast sep (s ++ t) = afterLast sep s ++ t := by
  intro s
  induction s with
  | nil => simp [afterLast, afterLast_eq_self ht]
  | cons c cs ih =>
    show afterLast sep (c :: (cs ++ t)) = afterLast sep (c :: cs) ++ t
    by_cases h1 : sep ∈ cs
    · have h1t : sep ∈ cs ++ t := List.mem_append_left _ h1
      simp only [afterLast, if_pos h1, if_pos h1t]
      exact ih
    · have h1t : sep ∉ cs ++ t := by
        intro m
        rcases List.mem_append.mp m with m1 | m2
        · exact h1 m1
        · exact ht m2
      by_cases h2 : c = sep
      · simp only [afterLast, if_neg h1, if_neg h1t, if_pos h2]
      · simp only [afterLast, if_neg h1, if_neg h1t, if_neg h2, List.cons_append]

theorem afterLast_append_sep (sep : Char) :
    ∀ u : List Char, afterLast sep (u ++ [sep]) = [] := by
  intro u
  induction u with
  | nil => simp [afterLast]
  | cons c cs ih =>
    show afterLast sep (c :: (cs ++ [sep])) = []
    have hmem : sep ∈ cs ++ [sep] :=
      List.mem_append_right _ (List.mem_cons_self sep [])
    simp only [afterLast, if_pos hmem]
    exact ih

theorem dropTrail_eq_self {sep : Char} {s : List Char}
    (h : afterLast sep s ≠ []) : dropTrail sep s = s := by
  cases hr : s.reverse with
  | nil =>
    have hs : s = [] := by
      have := congrArg List.reverse hr
      simpa using this
    subst hs
    simp [afterLast] at h
  | cons a t =>
    by_cases ha : a = sep
    · exfalso
      have hs : s = t.reverse ++ [a] := by
        have := congrArg List.reverse hr
        simpa using this
      rw [hs, ha] at h
      exact h (afterLast_append_sep sep t.reverse)
    · unfold dropTrail
      rw [hr]
      simp only [List.dropWhile_cons, decide_eq_true_eq, ha, if_false]
      rw [← hr, List.reverse_reverse]

theorem append_beforeFirst_fromFirst (c : Char) :
    ∀ s : List Char, beforeFirst c s ++ fromFirst c s = s := by
  intro s
  induction s with
  | nil => rfl
  | cons x xs ih =>
    by_cases hx : x = c
    · simp [beforeFirst, fromFirst, hx]
    · simp only [beforeFirst, fromFirst, if_neg hx, List.cons_append]
      rw [ih]

theorem fromFirst_cases (c : Char) :
    ∀ s : List Char, fromFirst c s = [] ∨ ∃ t, fromFirst c s = c :: t := by
  intro s
  induction s with
  | nil => exact Or.inl rfl
  | cons x xs ih =>
    by_cases hx : x = c
    · exact Or.inr ⟨xs, by simp [fromFirst, hx]⟩
    · simpa only [fromFirst, if_neg hx] using ih


/-! ### C2: identifier extraction and query strings -/

/-- C2 (counterexample): the two URLs below differ only in their query string,
yet `extract_vacancy_id` maps them to different identifiers — Python's
`VAC_ID_RE.search` scans the whole URL, so a `/vacancy/<digits>` occurrence
inside the query string is captured.  This refutes the claim as stated. -/
theorem c2_extract_query_counterexample :
    ("https://hh.ru/feedback?to=/vacancy/123" : String)
        = "https://hh.ru/feedback" ++ "?to=/vacancy/123"
      ∧ extract_vacancy_id "https://hh.ru/feedback?to=/vacancy/123".toList
          = "123".toList
      ∧ extract_vacancy_id "https://hh.ru/feedback".toList = "feedback".toList
      ∧ extract_vacancy_id "https://hh.ru/feedback?to=/vacancy/123".toList
          ≠ extract_vacancy_id "https://hh.ru/feedback".toList :=
  ⟨rfl, by decide, by decide, by decide⟩

/-- C2 (amended): for every URL `base` (query-free, i.e. containing no `?`)
and every query string `q` containing no `/`, appending `?q` does not change
the extracted identifier.  The slash restriction is forced by the
counterexample: a query containing `/` can host a `/vacancy/<digits>` match or
shift the `split("/")[-1]` fallback. -/
theorem c2_extract_query_invariant (base q : List Char)
    (hb : '?' ∉ base) (hq : '/' ∉ q) :
    extract_vacancy_id (base ++ '?' :: q) = extract_vacancy_id base := by
  unfold extract_vacancy_id
  rw [vacSearch_append_query q hq base]
  cases h : vacSearch base with
  | some d => rfl
  | none =>
    have hqq : '/' ∉ ('?' :: q) := by
      intro m
      rcases List.mem_cons.mp m with h1 | h2
      · exact absurd h1 (by decide)
      · exact hq h2
    have h1 : afterLast '/' (base ++ '?' :: q) = afterLast '/' base ++ '?' :: q :=
      afterLast_append hqq base
    have h2 : '?' ∉ afterLast '/' base := fun m => hb (mem_afterLast m)
    rw [h1, beforeFirst_append_cons h2, beforeFirst_eq_self h2]

/-- C2 witness: the amended theorem applied to the spec's own example pair. -/
theorem c2_extract_query_invariant_witness :
    extract_vacancy_id "https://hh.ru/vacancy/12345678?query=python".toList
      = extract_vacancy_id "https://hh.ru/vacancy/12345678".toList := by
  have e : "https://hh.ru/vacancy/12345678?query=python".toList
      = "https://hh.ru/vacancy/12345678".toList ++ '?' :: "query=python".toList := by
    decide
  rw [e]
  exact c2_extract_query_invariant _ _ (by decide) (by decide)

/-! ### C9: the fallback branch of identifier extraction -/

/-- C9 (counterexample): `https://hh.ru/some/path/` has no `/vacancy/<digits>`
segment, and its last non-empty path segment is `path`, but the code's
fallback `url.split("/")[-1].split("?")[0]` returns the empty string for a URL
ending in `/`.  This refutes the claim as stated. -/
theorem c9_extract_fallback_counterexample :
    vacSearch "https://hh.ru/some/path/".toList = none
      ∧ extract_vacancy_id "https://hh.ru/some/path/".toList = []
      ∧ specLastSeg "https://hh.ru/some/path/".toList = "path".toList
      ∧ extract_vacancy_id "https://hh.ru/some/path/".toList
          ≠ specLastSeg "https://hh.ru/some/path/".toList :=
  ⟨by decide, by decide, by decide, by decide⟩

/-- C9 (amended): for every URL in which the regex finds no
`/vacancy/<digits>` occurrence anywhere (not merely in the path), whose query
tail contains no `/`, and whose last path segment is non-empty,
`extract_vacancy_id` returns the last non-empty path segment with the query
string stripped.  The extra hypotheses are forced by the counterexamples: a
trailing slash yields the empty string, and a query string can host a regex
match or extra slashes. -/
theorem c9_extract_fallback_amended (url : List Char)
    (hnone : vacSearch url = none)
    (hq : '/' ∉ fromFirst '?' url)
    (hne : afterLast '/' (beforeFirst '?' url) ≠ []) :
    extract_vacancy_id url = specLastSeg url := by
  have hsplit := append_beforeFirst_fromFirst '?' url
  have hb : '?' ∉ beforeFirst '?' url := not_mem_beforeFirst '?' url
  have hmem : '?' ∉ afterLast '/' (beforeFirst '?' url) :=
    fun m => hb (mem_afterLast m)
  unfold extract_vacancy_id specLastSeg
  rw [hnone, dropTrail_eq_self hne]
  rcases fromFirst_cases '?' url with hf | ⟨t, hf⟩
  · rw [hf, List.append_nil] at hsplit
    calc beforeFirst '?' (afterLast '/' url)
        = beforeFirst '?' (afterLast '/' (beforeFirst '?' url)) := by rw [hsplit]
      _ = afterLast '/' (beforeFirst '?' url) := beforeFirst_eq_self hmem
  · have ht : '/' ∉ ('?' :: t) := hf ▸ hq
    have hurl : url = beforeFirst '?' url ++ '?' :: t := by rw [← hf, hsplit]
    calc beforeFirst '?' (afterLast '/' url)
        = beforeFirst '?' (afterLast '/' (beforeFirst '?' url ++ '?' :: t)) := by
          rw [← hurl]
      _ = beforeFirst '?' (afterLast '/' (beforeFirst '?' url) ++ '?' :: t) := by
          rw [afterLast_append ht]
      _ = afterLast '/' (beforeFirst '?' url) := beforeFirst_append_cons hmem t

/-- C9 witness: the amended theorem applied to the spec's example with a
query string attached. -/
theorem c9_extract_fallback_amended_witness :
    extract_vacancy_id "https://hh.ru/some/path/5554433?a=b".toList
      = specLastSeg "https://hh.ru/some/path/5554433?a=b".toList :=
  c9_extract_fallback_amended _ (by decide) (by decide) (by decide)

/-- Sanity: the regex literal of the embedding agrees with the source text of
`VAC_ID_RE`. -/
theorem vacLit_eq_source : vacLit = "/vacancy/".toList := by decide

-- Sanity examples matching tests/test_utils.py.
example : extract_vacancy_id "https://hh.ru/vacancy/12345678".toList = "12345678".toList := by
  decide
example :
    extract_vacancy_id "https://spb.hh.ru/vacancy/87654321?query=python".toList
      = "87654321".toList := by decide
example : extract_vacancy_id "https://hh.ru/some/path/5554433".toList = "5554433".toList := by
  decide

/-! ### Helper lemmas about the cover-letter fill loop -/

theorem mem012 (n : Nat) : n ∈ ([0, 1, 2] : List Nat) ↔ n < 3 := by
  simp only [List.mem_cons, List.mem_singleton, List.not_mem_nil, or_false]
  omega

theorem fillStratLoop_eq_any (cover : List Char) (probe : Nat → FillProbe) :
    ∀ l : List Nat, fillStratLoop cover probe l
      = l.any (fun s => goodProbe cover (probe s)) := by
  intro l
  induction l with
  | nil => rfl
  | cons s rest ih =>
    rw [List.any_cons, ← ih]
    simp only [fillStratLoop]
    cases hv : (probe s).visible with
    | false =>
      have hg : goodProbe cover (probe s) = false := by
        unfold goodProbe; rw [hv]; rfl
      rw [if_neg Bool.false_ne_true, hg, Bool.false_or]
    | true =>
      cases hr : (probe s).raises with
      | true =>
        have hg : goodProbe cover (probe s) = false := by
          unfold goodProbe; rw [hv, hr]; rfl
        rw [if_pos rfl, if_pos rfl, hg, Bool.false_or]
      | false =>
        by_cases ht : min 20 (cover.length / 2) ≤ (stripWs (probe s).readback).length
        · have hg : goodProbe cover (probe s) = true := by
            unfold goodProbe; rw [hv, hr, decide_eq_true ht]; rfl
          rw [if_pos rfl, if_neg Bool.false_ne_true, if_pos ht, hg, Bool.true_or]
        · have hg : goodProbe cover (probe s) = false := by
            unfold goodProbe; rw [hv, hr, decide_eq_false ht]; rfl
          rw [if_pos rfl, if_neg Bool.false_ne_true, if_neg ht, hg, Bool.false_or]

theorem fillAttemptLoop_fst (cover : List Char) (env : Nat → Nat → FillProbe) :
    ∀ l : List Nat, (fillAttemptLoop cover env l).1
      = l.any (fun a => fillStratLoop cover (env a) [0, 1, 2]) := by
  intro l
  induction l with
  | nil => rfl
  | cons a rest ih =>
    cases h : fillStratLoop cover (env a) [0, 1, 2] with
    | true => simp [fillAttemptLoop, h]
    | false => simp [fillAttemptLoop, h, ih]

theorem fillAttemptLoop_acts (cover : List Char) (env : Nat → Nat → FillProbe) :
    ∀ l : List Nat, ∀ x ∈ (fillAttemptLoop cover env l).2, ∃ a, x = Act.fillTry a := by
  intro l
  induction l with
  | nil => intro x hx; simp [fillAttemptLoop] at hx
  | cons a rest ih =>
    intro x hx
    cases h : fillStratLoop cover (env a) [0, 1, 2] with
    | true =>
      simp [fillAttemptLoop, h] at hx
      exact ⟨a, hx⟩
    | false =>
      simp [fillAttemptLoop, h] at hx
      rcases hx with rfl | hx2
      · exact ⟨a, rfl⟩
      · exact ih x hx2

theorem fillAttemptLoop_count (cover : List Char) (env : Nat → Nat → FillProbe) :
    ∀ l : List Nat, List.countP isFillTry (fillAttemptLoop cover env l).2 ≤ l.length := by
  intro l
  induction l with
  | nil => simp [fillAttemptLoop]
  | cons a rest ih =>
    cases h : fillStratLoop cover (env a) [0, 1, 2] with
    | true =>
      simp [fillAttemptLoop, h, List.countP_cons, List.countP_nil, isFillTry]
    | false =>
      simp only [fillAttemptLoop, h, Bool.false_eq_true, if_false, List.countP_cons,
        List.length_cons]
      have hft : isFillTry (Act.fillTry a) = true := rfl
      simp only [hft, if_true]
      omega

theorem fill_fst_iff (cover : List Char) (env : Nat → Nat → FillProbe) :
    (fill_cover_letter_with_verification cover env).1 = true ↔
      ∃ a, a < 3 ∧ ∃ s, s < 3 ∧ goodProbe cover (env a s) = true := by
  unfold fill_cover_letter_with_verification
  rw [fillAttemptLoop_fst, List.any_eq_true]
  constructor
  · rintro ⟨a, ha, hstrat⟩
    rw [fillStratLoop_eq_any, List.any_eq_true] at hstrat
    obtain ⟨s, hs, hg⟩ := hstrat
    exact ⟨a, (mem012 a).mp ha, s, (mem012 s).mp hs, hg⟩
  · rintro ⟨a, ha, s, hs, hg⟩
    refine ⟨a, (mem012 a).mpr ha, ?_⟩
    rw [fillStratLoop_eq_any, List.any_eq_true]
    exact ⟨s, (mem012 s).mpr hs, hg⟩

/-! ### C6: the cover-letter acceptance threshold -/

/-- C6: `fill_cover_letter_with_verification` reports success exactly when
some attempt's strategy probe found a visible textarea, the interaction did
not raise, and the stripped read-back value has length at least
`min(20, L // 2)` where `L` is the length of the supplied text; any probe
below the threshold is rejected and the loop moves on to the next strategy or
attempt (reporting failure only when all nine probes fail). -/
theorem c6_fill_threshold (cover : List Char) (env : Nat → Nat → FillProbe) :
    (fill_cover_letter_with_verification cover env).1 = true ↔
      ∃ a, a < 3 ∧ ∃ s, s < 3 ∧ (env a s).visible = true ∧ (env a s).raises = false ∧
        min 20 (cover.length / 2) ≤ (stripWs (env a s).readback).length := by
  rw [fill_fst_iff]
  constructor
  · rintro ⟨a, ha, s, hs, hg⟩
    simp only [goodProbe, Bool.and_eq_true, Bool.not_eq_true', decide_eq_true_eq] at hg
    exact ⟨a, ha, s, hs, hg.1.1, hg.1.2, hg.2⟩
  · rintro ⟨a, ha, s, hs, hv, hr, ht⟩
    refine ⟨a, ha, s, hs, ?_⟩
    simp [goodProbe, hv, hr, ht]

/-! ### Helper lemmas about the submission loop -/

theorem runSubmitCycle_probe_count (k : Nat) (c : SubmitCycle) :
    List.countP isSubmitProbe (runSubmitCycle k c).2 = 1 := by
  unfold runSubmitCycle
  cases find_enabled_submit c.probes with
  | some i =>
    cases h : c.click1Raises with
    | true => simp only [h, if_pos rfl]; rfl
    | false => simp only [h, if_neg Bool.false_ne_true]; rfl
  | none => rfl

theorem runSubmitCycle_snd (k : Nat) (c : SubmitCycle) :
    (runSubmitCycle k c).2 =
      match find_enabled_submit c.probes with
      | some _ =>
        if c.click1Raises then [Act.submitProbe k, Act.submitClick k, Act.submitClick k]
        else [Act.submitProbe k, Act.submitClick k]
      | none => [Act.submitProbe k, Act.consentCheck] := by
  unfold runSubmitCycle
  cases find_enabled_submit c.probes <;> rfl

theorem runSubmitCycle_acts_shape (k : Nat) (c : SubmitCycle) :
    ∀ x ∈ (runSubmitCycle k c).2,
      x = Act.submitProbe k ∨ x = Act.submitClick k ∨ x = Act.consentCheck := by
  intro x hx
  rw [runSubmitCycle_snd] at hx
  cases hfind : find_enabled_submit c.probes with
  | some i =>
    rw [hfind] at hx
    by_cases h : c.click1Raises = true
    · rw [if_pos h] at hx
      simp only [List.mem_cons, List.not_mem_nil, or_false] at hx
      tauto
    · rw [if_neg h] at hx
      simp only [List.mem_cons, List.not_mem_nil, or_false] at hx
      tauto
  | none =>
    rw [hfind] at hx
    simp only [List.mem_cons, List.not_mem_nil, or_false] at hx
    tauto

theorem submitLoop_probe_count (cycles : Nat → SubmitCycle) :
    ∀ l : List Nat, List.countP isSubmitProbe (submitLoop cycles l).2 ≤ l.length := by
  intro l
  induction l with
  | nil => simp [submitLoop]; rfl
  | cons k rest ih =>
    simp only [submitLoop]
    cases hr : (runSubmitCycle k (cycles k)).1 with
    | some b =>
      have h1 := runSubmitCycle_probe_count k (cycles k)
      simp only [List.length_cons]
      omega
    | none =>
      have h1 := runSubmitCycle_probe_count k (cycles k)
      simp only [List.countP_append, List.length_cons]
      omega

theorem submitLoop_acts_shape (cycles : Nat → SubmitCycle) :
    ∀ l : List Nat, ∀ x ∈ (submitLoop cycles l).2,
      (∃ k, x = Act.submitProbe k) ∨ (∃ k, x = Act.submitClick k) ∨
        x = Act.consentCheck ∨ x = Act.shot "submit_fail" := by
  intro l
  induction l with
  | nil =>
    intro x hx
    simp only [submitLoop, List.mem_cons, List.not_mem_nil, or_false] at hx
    tauto
  | cons k rest ih =>
    intro x hx
    simp only [submitLoop] at hx
    cases hr : (runSubmitCycle k (cycles k)).1 with
    | some b =>
      rw [hr] at hx
      rcases runSubmitCycle_acts_shape k (cycles k) x hx with h | h | h
      · exact Or.inl ⟨k, h⟩
      · exact Or.inr (Or.inl ⟨k, h⟩)
      · exact Or.inr (Or.inr (Or.inl h))
    | none =>
      rw [hr] at hx
      rcases List.mem_append.mp hx with h | h
      · rcases runSubmitCycle_acts_shape k (cycles k) x h with h2 | h2 | h2
        · exact Or.inl ⟨k, h2⟩
        · exact Or.inr (Or.inl ⟨k, h2⟩)
        · exact Or.inr (Or.inr (Or.inl h2))
      · exact ih x h

theorem resumePhaseActs_shape (cfg : Cfg) (env : ResumeEnv) :
    ∀ x ∈ resumePhaseActs cfg env,
      x = Act.resumeSpecific ∨ x = Act.shot "resume_not_found" ∨ x = Act.resumeAny := by
  intro x hx
  unfold resumePhaseActs at hx
  split at hx
  · simp only [List.mem_cons, List.not_mem_nil, or_false] at hx
    tauto
  · split at hx <;>
      (simp only [List.mem_cons, List.not_mem_nil, or_false] at hx; tauto)

/-! ### C4: bounded retries, terminating loops -/

/-- C4: for every configuration, cover text and environment, the submission
loop of `add_cover_letter_and_submit` starts at most 3 probe→click→verify
cycles before giving up (the failing return the workflow maps to `Error`),
and the cover-letter fill loop starts at most 3 attempt cycles before
reporting failure.  Both loops are structural recursions over `range(3)` in
the embedding, hence always terminate. -/
theorem c4_bounded_retries (cfg : Cfg) (cover : List Char) (env : SubmitEnv) :
    List.countP isSubmitProbe (add_cover_letter_and_submit cfg cover env).2 ≤ 3 ∧
      List.countP isFillTry (add_cover_letter_and_submit cfg cover env).2 ≤ 3 := by
  have hfillP : List.countP isSubmitProbe
      (fill_cover_letter_with_verification cover env.fill).2 = 0 := by
    rw [List.countP_eq_zero]
    intro a ha
    obtain ⟨i, rfl⟩ := fillAttemptLoop_acts cover env.fill [0, 1, 2] a ha
    simp [isSubmitProbe]
  have hfillT : List.countP isFillTry
      (fill_cover_letter_with_verification cover env.fill).2 ≤ 3 :=
    fillAttemptLoop_count cover env.fill [0, 1, 2]
  have hsubP : List.countP isSubmitProbe (submitLoop env.cycles [0, 1, 2]).2 ≤ 3 :=
    submitLoop_probe_count env.cycles [0, 1, 2]
  have hsubT : List.countP isFillTry (submitLoop env.cycles [0, 1, 2]).2 = 0 := by
    rw [List.countP_eq_zero]
    intro a ha
    rcases submitLoop_acts_shape env.cycles [0, 1, 2] a ha with ⟨i, rfl⟩ | ⟨i, rfl⟩ | rfl | rfl <;>
      simp [isFillTry]
  have hresP : List.countP isSubmitProbe (resumePhaseActs cfg env.resume) = 0 := by
    rw [List.countP_eq_zero]
    intro a ha
    rcases resumePhaseActs_shape cfg env.resume a ha with rfl | rfl | rfl <;>
      simp [isSubmitProbe]
  have hresT : List.countP isFillTry (resumePhaseActs cfg env.resume) = 0 := by
    rw [List.countP_eq_zero]
    intro a ha
    rcases resumePhaseActs_shape cfg env.resume a ha with rfl | rfl | rfl <;>
      simp [isFillTry]
  unfold add_cover_letter_and_submit
  by_cases hreq : (cfg.require_cover_letter &&
      !(fill_cover_letter_with_verification cover env.fill).1) = true
  · rw [if_pos hreq]
    simp only [List.countP_append]
    have h1 : List.countP isSubmitProbe [Act.shot "no_cover_letter"] = 0 := rfl
    have h2 : List.countP isFillTry [Act.shot "no_cover_letter"] = 0 := rfl
    omega
  · rw [if_neg hreq]
    simp only [List.countP_append]
    have h1 : List.countP isSubmitProbe [Act.consentCheck] = 0 := rfl
    have h2 : List.countP isFillTry [Act.consentCheck] = 0 := rfl
    omega

/-! ### C7: cover letter required but fill fails -/

/-- C7: whenever the cover-letter textarea never becomes visible on any
strategy of any of the three attempts and `require_cover_letter` is set,
`add_cover_letter_and_submit` returns the failing result (which the workflow
maps to `Error`), takes the `no_cover_letter` screenshot, and never attempts
resume selection or submission. -/
theorem c7_no_cover_letter (cfg : Cfg) (cover : List Char) (env : SubmitEnv)
    (hreq : cfg.require_cover_letter = true)
    (hvis : ∀ a s, a < 3 → s < 3 → (env.fill a s).visible = false) :
    (add_cover_letter_and_submit cfg cover env).1 = false ∧
      Act.shot "no_cover_letter" ∈ (add_cover_letter_and_submit cfg cover env).2 ∧
      ∀ x ∈ (add_cover_letter_and_submit cfg cover env).2,
        isResumeOrSubmitAct x = false := by
  have hfl : (fill_cover_letter_with_verification cover env.fill).1 = false := by
    cases hc : (fill_cover_letter_with_verification cover env.fill).1 with
    | false => rfl
    | true =>
      obtain ⟨a, ha, s, hs, hg⟩ := (fill_fst_iff cover env.fill).mp hc
      unfold goodProbe at hg
      rw [hvis a s ha hs] at hg
      simp at hg
  have hcond : (cfg.require_cover_letter &&
      !(fill_cover_letter_with_verification cover env.fill).1) = true := by
    rw [hreq, hfl]; rfl
  unfold add_cover_letter_and_submit
  rw [if_pos hcond]
  refine ⟨rfl, List.mem_append_right _ (List.mem_cons_self _ _), ?_⟩
  intro x hx
  rcases List.mem_append.mp hx with h | h
  · obtain ⟨i, rfl⟩ := fillAttemptLoop_acts cover env.fill [0, 1, 2] x h
    rfl
  · simp only [List.mem_cons, List.not_mem_nil, or_false] at h
    subst h
    rfl

/-- C7 witness: the theorem applied to a concrete never-visible environment
under the default strict configuration. -/
theorem c7_no_cover_letter_witness :
    (add_cover_letter_and_submit c1Cfg c1Cover c7Env).1 = false ∧
      Act.shot "no_cover_letter" ∈ (add_cover_letter_and_submit c1Cfg c1Cover c7Env).2 ∧
      ∀ x ∈ (add_cover_letter_and_submit c1Cfg c1Cover c7Env).2,
        isResumeOrSubmitAct x = false :=
  c7_no_cover_letter c1Cfg c1Cover c7Env rfl (fun _ _ _ _ => rfl)

/-! ### C1: strict resume mode does not stop the submission (code bug) -/

/-- C1 (evaluation of the code at the failing input): with
`fail_if_resume_not_found = true` and a resume page carrying no entries at all
(so no entry's text contains the criterion), the client.py
`add_cover_letter_and_submit` takes the `resume_not_found` screenshot but then
continues — its own log line says the application will NOT be sent, yet it
probes for a submit button, clicks it, and (the page then showing a
confirmation phrase) returns `True`, which `apply_to_vacancy` maps to
`Success`, not `Error`.  The claim's expected behaviour is exhibited by the
refactored variant in `add_refactored_strict_resume`. -/
theorem c1_strict_resume_code_eval :
    add_cover_letter_and_submit c1Cfg c1Cover c1Env
      = (true, [Act.fillTry 0, Act.resumeSpecific, Act.shot "resume_not_found",
          Act.consentCheck, Act.submitProbe 0, Act.submitClick 0]) := by
  decide

/-- The method `add_cover_letter_and_submit` of src/hh_auto_apply_refactored.py at the
same failing input: it returns `False` (mapped to `Error`) right after the
`resume_not_found` screenshot, with no submit probe and no submit click —
the behaviour C1 describes. -/
theorem add_refactored_strict_resume :
    add_cover_letter_and_submit_refactored c1Cfg c1Cover c1Env
      = (false, [Act.fillTry 0, Act.resumeSpecific, Act.shot "resume_not_found"]) := by
  decide

/-! ### C8: the enabled-submit qualification test -/

/-- C8 (counterexample): a visible button whose `disabled` attribute is
PRESENT with the empty-string value (exactly what `get_attribute("disabled")`
returns for a bare `disabled` HTML attribute) is selected by
`find_enabled_submit`, because Python's `if not disabled` treats the empty
string as falsy — while the claim's reading ("no disabled attribute is
present") disqualifies it. -/
theorem c8_disabled_empty_counterexample :
    find_enabled_submit [⟨true, false, some [], none⟩] = some 0
      ∧ btnQualifies ⟨true, false, some [], none⟩ = true
      ∧ specQualifies ⟨true, false, some [], none⟩ = false :=
  ⟨by decide, by decide, by decide⟩

theorem findEnabledSubmitAux_eq (ps : List BtnProbe) :
    ∀ i, findEnabledSubmitAux i ps
      = (List.findIdx? btnQualifies ps).map (· + i) := by
  induction ps with
  | nil => intro i; rfl
  | cons p rest ih =>
    intro i
    by_cases hv : p.visible = true
    · by_cases hr : p.raises = true
      · have hq : btnQualifies p = false := by
          unfold btnQualifies; rw [hv, hr]; rfl
        have hl : findEnabledSubmitAux i (p :: rest)
            = findEnabledSubmitAux (i + 1) rest := by
          conv_lhs => unfold findEnabledSubmitAux
          rw [if_pos hv, if_pos hr]
        rw [hl, ih (i + 1), List.findIdx?_cons, hq]
        cases hf : List.findIdx? btnQualifies rest with
        | none => simp [hf]
        | some j => simp [hf]; omega
      · have hr' : p.raises = false := by simpa using hr
        by_cases hc : (pyAttrFalsy p.disabledAttr && ariaOk p.ariaDisabled) = true
        · have hq : btnQualifies p = true := by
            unfold btnQualifies
            rw [hv, hr']
            simpa using hc
          have hl : findEnabledSubmitAux i (p :: rest) = some i := by
            conv_lhs => unfold findEnabledSubmitAux
            rw [if_pos hv, if_neg hr, if_pos hc]
          rw [hl, List.findIdx?_cons, hq]
          simp
        · have hq : btnQualifies p = false := by
            unfold btnQualifies
            rw [hv, hr']
            simpa using hc
          have hl : findEnabledSubmitAux i (p :: rest)
              = findEnabledSubmitAux (i + 1) rest := by
            conv_lhs => unfold findEnabledSubmitAux
            rw [if_pos hv, if_neg hr, if_neg hc]
          rw [hl, ih (i + 1), List.findIdx?_cons, hq]
          cases hf : List.findIdx? btnQualifies rest with
          | none => simp [hf]
          | some j => simp [hf]; omega
    · have hq : btnQualifies p = false := by
        unfold btnQualifies
        rw [show p.visible = false by simpa using hv]
        rfl
      have hl : findEnabledSubmitAux i (p :: rest)
          = findEnabledSubmitAux (i + 1) rest := by
        conv_lhs => unfold findEnabledSubmitAux
        rw [if_neg hv]
      rw [hl, ih (i + 1), List.findIdx?_cons, hq]
      cases hf : List.findIdx? btnQualifies rest with
      | none => simp [hf]
      | some j => simp [hf]; omega

/-- C8 (amended): `find_enabled_submit` selects exactly the first candidate in
strategy order that is visible, whose attribute reads do not raise, whose
`disabled` attribute is absent OR present with the empty-string value (Python
truthiness of `if not disabled`), and whose `aria-disabled` attribute is
absent or equals the literal string `false`.  The amendment is forced by the
counterexample: a present-but-empty `disabled` attribute still qualifies. -/
theorem c8_find_enabled_submit_amended (ps : List BtnProbe) :
    find_enabled_submit ps = List.findIdx? btnQualifies ps := by
  unfold find_enabled_submit
  rw [findEnabledSubmitAux_eq ps 0]
  cases List.findIdx? btnQualifies ps with
  | none => rfl
  | some j => simp

/-! ### C5: the already-applied short-circuit -/

/-- C5: on every successfully opened listing page on which some confirmation
phrase is visible OR no apply entry point is found, `apply_to_vacancy` returns
`SkippedAlreadyApplied` (with the extracted title) and performs none of the
cover-letter, resume-selection, consent or submission actions. -/
theorem c5_already_applied_skip (env : VacEnv)
    (hnav : env.navRaise = none)
    (hcond : env.page0.textVisible.any (fun b => b) = true ∨
      get_apply_button env.page0.applyBtnVisible = none) :
    (apply_to_vacancy env).1
        = ExecResult.ok ApplyResult.skippedAlreadyApplied env.title ∧
      ∀ x ∈ (apply_to_vacancy env).2, isWorkAct x = false := by
  have happ : already_applied env.page0 = true := by
    unfold already_applied
    rcases hcond with h | h
    · rw [h]; rfl
    · rw [h]; simp
  simp only [apply_to_vacancy, hnav]
  rw [if_pos happ]
  refine ⟨rfl, ?_⟩
  intro x hx
  simp only [List.mem_cons, List.not_mem_nil, or_false] at hx
  rcases hx with rfl | rfl <;> rfl

/-- C5 witness: a page showing the first confirmation phrase. -/
theorem c5_already_applied_skip_witness :
    (apply_to_vacancy ⟨none, ['t'], ⟨[true], [true]⟩⟩).1
        = ExecResult.ok ApplyResult.skippedAlreadyApplied ['t'] ∧
      ∀ x ∈ (apply_to_vacancy ⟨none, ['t'], ⟨[true], [true]⟩⟩).2,
        isWorkAct x = false :=
  c5_already_applied_skip ⟨none, ['t'], ⟨[true], [true]⟩⟩ rfl (Or.inl (by decide))

/-! ### C3: unclassified exceptions at the workflow boundary (code bug) -/

/-- C3 (evaluation of the code at the failing input): when the body of
`apply_to_vacancy` raises any exception that is not a `PWTimeoutError` (for
example `page.goto` raising a Playwright error on a DNS failure, or the
unconditional `AttributeError` from reading the missing
`Config.use_ai_cover_letter` field), the `except TargetClosedError` clause —
whose name is never imported — makes Python raise `NameError` during exception
handling: no screenshot is taken, no `Error` outcome is returned, and the
exception propagates to the caller; only the `finally` page-close still runs. -/
theorem c3_unclassified_exception_eval :
    apply_to_vacancy ⟨some ExcKind.otherExc, [], ⟨[], []⟩⟩
        = (ExecResult.uncaught "NameError", [Act.navGoto, Act.pageClose])
      ∧ (apply_to_vacancy ⟨some ExcKind.otherExc, [], ⟨[], []⟩⟩).1
          ≠ ExecResult.ok ApplyResult.error [] :=
  ⟨by decide, by decide⟩

/-! ### C10: mark_seen after every processed listing -/

/-- C10: for every listing whose extracted identifier is not yet in the
seen-store, the main-loop body invokes `mark_seen` on that identifier after
the `apply_to_vacancy` call, whatever outcome (`Success`,
`SkippedAlreadyApplied` or `Error`) that call returned; the identifier is then
in the store, so a second encounter of the same listing — in particular one
whose processing ended in `Error` — is skipped without reprocessing. -/
theorem c10_mark_seen_always (store : List (List Char)) (vurl : List Char)
    (o o2 : ApplyResult) (hnew : extract_vacancy_id vurl ∉ store) :
    AppAct.markSeen (extract_vacancy_id vurl) ∈ (processLink false store vurl o).1 ∧
      (∃ pre post, (processLink false store vurl o).1
          = pre ++ AppAct.markSeen (extract_vacancy_id vurl) :: post ∧
          AppAct.applyCall vurl ∈ pre) ∧
      extract_vacancy_id vurl ∈ (processLink false store vurl o).2 ∧
      (processLink false (processLink false store vurl o).2 vurl o2).1 = [] := by
  have heq : processLink false store vurl o
      = (AppAct.openListing vurl :: AppAct.applyCall vurl ::
          AppAct.markSeen (extract_vacancy_id vurl) ::
          (if o = ApplyResult.success then [AppAct.csvRow vurl] else []),
         store ++ [extract_vacancy_id vurl]) := by
    simp only [processLink]
    rw [if_neg hnew]
    rfl
  rw [heq]
  refine ⟨?_, ?_, ?_, ?_⟩
  · exact List.mem_cons_of_mem _ (List.mem_cons_of_mem _ (List.mem_cons_self _ _))
  · exact ⟨[AppAct.openListing vurl, AppAct.applyCall vurl],
      (if o = ApplyResult.success then [AppAct.csvRow vurl] else []),
      rfl, List.mem_cons_of_mem _ (List.mem_cons_self _ _)⟩
  · exact List.mem_append_right _ (List.mem_cons_self _ _)
  · simp only [processLink]
    rw [if_pos (List.mem_append_right _ (List.mem_cons_self _ _))]

/-- C10 witness: a fresh store, a vacancy URL, and an `Error` outcome. -/
theorem c10_mark_seen_always_witness :
    AppAct.markSeen (extract_vacancy_id "https://hh.ru/vacancy/1".toList)
        ∈ (processLink false [] "https://hh.ru/vacancy/1".toList ApplyResult.error).1 ∧
      (∃ pre post,
        (processLink false [] "https://hh.ru/vacancy/1".toList ApplyResult.error).1
          = pre ++ AppAct.markSeen (extract_vacancy_id "https://hh.ru/vacancy/1".toList)
              :: post ∧
          AppAct.applyCall "https://hh.ru/vacancy/1".toList ∈ pre) ∧
      extract_vacancy_id "https://hh.ru/vacancy/1".toList
        ∈ (processLink false [] "https://hh.ru/vacancy/1".toList ApplyResult.error).2 ∧
      (processLink false
        (processLink false [] "https://hh.ru/vacancy/1".toList ApplyResult.error).2
        "https://hh.ru/vacancy/1".toList ApplyResult.error).1 = [] :=
  c10_mark_seen_always [] "https://hh.ru/vacancy/1".toList ApplyResult.error
    ApplyResult.error (List.not_mem_nil _)
